import Mathlib

/-!
# shairplay `src/lib/httpd.c`: connection table, event loop body and lifecycle

A shallow embedding of `httpd.c`.  The server object `httpd_t` and its connection
slots are records; every call that leaves the file (socket calls, the application
callbacks, the request parser, thread primitives) is recorded, in program order, in a
list of `Event`s returned next to the new state.  Results that the environment chooses
(what `recv`, `send`, `netutils_init_socket` and `listen` return) are explicit
arguments.  Calls to `logger_log` have no effect on the server and are left out.

C `int`s are `Int`; pointers handed to or returned by the application (`void *`) are
`Nat` with `0` for `NULL`; byte buffers are lists of `Nat`.
-/

namespace Httpd

/-- A byte buffer together with its length (`unsigned char *` / `char *` plus an
`int` length in the source). -/
abbrev Bytes := List Nat

/-- Modelled from the spec: the request parser of `http_request.h` is not part of the
sources.  A request object is represented by everything the event loop has done to it:
the `use_rtsp` flag it was created with and the `(buffer, datalen)` pairs fed to it, in
order.  What the parser concludes from that history is a parameter (`Env`). -/
structure http_request_t where
  use_rtsp : Int
  fed : List (Bytes × Int)
deriving DecidableEq, Repr

/-- Modelled from the spec: `http_request_init(use_rtsp)` creates a parser instance for
the given protocol variant, with nothing fed yet. -/
def http_request_init (use_rtsp : Int) : http_request_t :=
  { use_rtsp := use_rtsp, fed := [] }

/-- Modelled from the spec: `http_request_add_data(request, data, datalen)` feeds a byte
buffer to the parser; the arguments are recorded exactly as passed. -/
def http_request_add_data (request : http_request_t) (data : Bytes) (datalen : Int) :
    http_request_t :=
  { request with fed := request.fed ++ [(data, datalen)] }

/-- `struct http_connection_s` (lines 12-18). -/
structure http_connection_t where
  connected : Int
  socket_fd : Int
  user_data : Nat
  request : Option http_request_t
deriving DecidableEq, Repr

/-- `struct httpd_s` (lines 21-38) without the logger, the callbacks (see `Env`), the
thread handle and the mutex.  `connections` is the array allocated by `httpd_init`; its
length is `max_connections`, which the source never changes after `httpd_init`. -/
structure httpd_t where
  use_rtsp : Int
  connections : List http_connection_t
  running : Int
  joined : Int
  server_fd : Int
deriving DecidableEq, Repr

/-- The field `max_connections`: the number of slots of the table. -/
def httpd_t.max_connections (httpd : httpd_t) : Int := httpd.connections.length

/-- The callback set `httpd_callbacks_t` (declared in `httpd.h`): `ctx` is the field
the source calls `opaque`; `conn_init` returns the per-connection handle and
`conn_request` the response bytes (`none` when it leaves `*response` at `NULL`).
`conn_destroy` returns nothing and is only recorded as an event. -/
structure httpd_callbacks_t where
  ctx : Nat
  conn_init : Nat → Bytes → Bytes → Nat
  conn_request : Nat → http_request_t → Option Bytes

/-- Everything the event loop consults outside the file: the application callbacks and
the two parser queries `http_request_has_error` and `http_request_is_complete`. -/
structure Env where
  callbacks : httpd_callbacks_t
  http_request_has_error : http_request_t → Bool
  http_request_is_complete : http_request_t → Bool

/-- The `how` argument of `shutdown`. -/
inductive ShutHow where
  | SHUT_RD
  | SHUT_WR
  | SHUT_RDWR
deriving DecidableEq, Repr

/-- One call that leaves `httpd.c`, with its arguments (and, for calls whose result the
environment chooses, the result). -/
inductive Event where
  | shutdown (fd : Int) (how : ShutHow)
  | closesocket (fd : Int)
  | conn_init (ctx : Nat) (local_addr : Bytes) (remote_addr : Bytes)
  | conn_destroy (user_data : Nat)
  | conn_request (user_data : Nat) (request : http_request_t)
  | http_request_init (use_rtsp : Int)
  | http_request_add_data (request : http_request_t) (buffer : Bytes) (datalen : Int)
  | http_request_destroy (request : http_request_t)
  | http_response_destroy (response : Option Bytes)
  | recv (fd : Int) (ret : Int)
  | send (fd : Int) (buffer : Bytes) (ret : Int)
  | netutils_init_socket (port : Nat) (ret : Int)
  | listen (fd : Int) (backlog : Int) (ret : Int)
  | thread_create
  | thread_join
deriving DecidableEq, Repr

/-- A slot as `calloc` leaves it: every field zero. -/
def zero_connection : http_connection_t :=
  { connected := 0, socket_fd := 0, user_data := 0, request := none }

/-- `httpd_init` (lines 40-74), for allocations that succeed.  `none` stands for the
failed `assert(max_connections > 0)`. -/
def httpd_init (max_connections : Int) (use_rtsp : Int) : Option httpd_t :=
  if max_connections > 0 then
    some { use_rtsp := if use_rtsp ≠ 0 then 1 else 0
           connections := List.replicate max_connections.toNat zero_connection
           running := 0
           joined := 1
           server_fd := 0 }
  else none

/-- The scan of lines 92-96, started at index `i` with the slots from `i` on still to
look at: the index of the first slot whose `connected` is zero, or the index one past
the last slot when there is none. -/
def find_free_slot : List http_connection_t → Nat → Nat
  | [], i => i
  | connection :: rest, i =>
    if connection.connected = 0 then i else find_free_slot rest (i + 1)

/-- Assignment through `httpd->connections[i]`: slot `i` is replaced by `f` of itself. -/
def update_slot (connections : List http_connection_t) (i : Nat)
    (f : http_connection_t → http_connection_t) : List http_connection_t :=
  match connections[i]? with
  | none => connections
  | some connection => connections.set i (f connection)

/-- `httpd_add_connection` (lines 87-107). -/
def httpd_add_connection (env : Env) (httpd : httpd_t) (fd : Int) (local_addr : Bytes)
    (remote_addr : Bytes) : httpd_t × List Event :=
  let i := find_free_slot httpd.connections 0
  if (i : Int) = httpd.max_connections then
    (httpd, [Event.shutdown fd ShutHow.SHUT_RDWR, Event.closesocket fd])
  else
    ({ httpd with
        connections := update_slot httpd.connections i fun connection =>
          { connection with
              socket_fd := fd
              connected := 1
              user_data := env.callbacks.conn_init env.callbacks.ctx local_addr remote_addr } },
     [Event.conn_init env.callbacks.ctx local_addr remote_addr])

/-- `httpd_remove_connection` (lines 109-120) on the slot `connection` points to; the
function touches no other part of the server. -/
def httpd_remove_connection (connection : http_connection_t) :
    http_connection_t × List Event :=
  let ev_request :=
    match connection.request with
    | some request => [Event.http_request_destroy request]
    | none => []
  ({ connection with request := none, connected := 0 },
   ev_request ++ [Event.conn_destroy connection.user_data,
                  Event.shutdown connection.socket_fd ShutHow.SHUT_WR,
                  Event.closesocket connection.socket_fd])

/-- The response write loop (lines 252-261) on socket `fd` for the payload `data`
(`datalen` is its length).  The list holds the results of the successive `send` calls and
the second argument is `written`.  Each call is recorded with the buffer it is passed,
the `datalen - written` bytes at `data + written`, and its result.  The value is `written`
on exit and the calls made; `none` when the loop is still running after the last supplied
result.  `written` is an unbounded integer: with results that never exceed the bytes
offered it stays within `0 .. datalen`, so the `int` of the source does not wrap. -/
def write_loop (fd : Int) (data : Bytes) : List Int → Int → Option (Int × List Event)
  | [], written =>
    if written < (data.length : Int) then none else some (written, [])
  | ret :: rets, written =>
    if written < (data.length : Int) then
      let ev := Event.send fd
        ((data.drop written.toNat).take ((data.length : Int) - written).toNat) ret
      if ret = -1 then some (written, [ev])
      else
        match write_loop fd data rets (written + ret) with
        | none => none
        | some (w, evs) => some (w, ev :: evs)
    else some (written, [])

/-- What the environment supplies while one slot is serviced: the result of `recv`, the
contents of `buffer` after it, and the results of the `send` calls that follow. -/
structure SlotInput where
  recv_ret : Int
  buffer : Bytes
  send_rets : List Int
deriving DecidableEq, Repr

/-- The body of the service loop (lines 204-266) for the slot `connection` points to.
`rfds` is the set of descriptors `select` reported readable.  `http_request_init` is taken
to succeed (the source asserts it).  `none` only when the write loop does not finish
within the supplied `send` results. -/
def service_connection (env : Env) (use_rtsp : Int) (rfds : List Int) (inp : SlotInput)
    (connection : http_connection_t) : Option (http_connection_t × List Event) :=
  if connection.connected = 0 then some (connection, [])
  else if connection.socket_fd ∉ rfds then some (connection, [])
  else
    let request :=
      match connection.request with
      | some request => request
      | none => http_request_init use_rtsp
    let ev_init :=
      match connection.request with
      | some _ => []
      | none => [Event.http_request_init use_rtsp]
    let ev_recv := [Event.recv connection.socket_fd inp.recv_ret]
    if inp.recv_ret = 0 then
      let removed := httpd_remove_connection { connection with request := some request }
      some (removed.1, ev_init ++ ev_recv ++ removed.2)
    else
      let request1 := http_request_add_data request inp.buffer inp.recv_ret
      let ev_add := [Event.http_request_add_data request inp.buffer inp.recv_ret]
      if env.http_request_has_error request1 then
        let removed := httpd_remove_connection { connection with request := some request1 }
        some (removed.1, ev_init ++ ev_recv ++ ev_add ++ removed.2)
      else if env.http_request_is_complete request1 then
        let response := env.callbacks.conn_request connection.user_data request1
        let ev_request := [Event.conn_request connection.user_data request1,
                           Event.http_request_destroy request1]
        let connection1 := { connection with request := none }
        match response with
        | some data =>
          match write_loop connection.socket_fd data inp.send_rets 0 with
          | none => none
          | some (_, ev_send) =>
            some (connection1, ev_init ++ ev_recv ++ ev_add ++ ev_request ++ ev_send ++
                    [Event.http_response_destroy (some data)])
        | none =>
          some (connection1, ev_init ++ ev_recv ++ ev_add ++ ev_request ++
                  [Event.http_response_destroy none])
      else
        some ({ connection with request := some request1 }, ev_init ++ ev_recv ++ ev_add)

/-- The service loop `for (i=0; i<httpd->max_connections; i++)` of lines 203-267 over the
slots from index `i` on; `inputs j` is what the environment supplies for slot `j`. -/
def service_loop (env : Env) (use_rtsp : Int) (rfds : List Int) (inputs : Nat → SlotInput) :
    List http_connection_t → Nat → Option (List http_connection_t × List Event)
  | [], _ => some ([], [])
  | connection :: rest, i =>
    match service_connection env use_rtsp rfds (inputs i) connection with
    | none => none
    | some (connection1, evs) =>
      match service_loop env use_rtsp rfds inputs rest (i + 1) with
      | none => none
      | some (rest1, evs1) => some (connection1 :: rest1, evs ++ evs1)

/-- The final loop of `httpd_thread` (lines 270-279): every slot that is still connected
is removed, in table order. -/
def drain_connections : List http_connection_t → List http_connection_t × List Event
  | [] => ([], [])
  | connection :: rest =>
    let drained := drain_connections rest
    if connection.connected = 0 then (connection :: drained.1, drained.2)
    else
      let removed := httpd_remove_connection connection
      (removed.1 :: drained.1, removed.2 ++ drained.2)

/-- The part of `httpd_thread` after its `while` loop (lines 270-283): the path the worker
takes when it has seen `running` cleared, when `select` failed or when `accept` failed. -/
def httpd_thread_exit (httpd : httpd_t) : httpd_t × List Event :=
  let drained := drain_connections httpd.connections
  ({ httpd with connections := drained.1 }, drained.2)

/-- The result of `httpd_start`: the returned code, the server afterwards, the value
in `*port` afterwards and the calls made. -/
structure StartResult where
  ret : Int
  httpd : httpd_t
  port : Nat
  events : List Event
deriving DecidableEq, Repr

/-- `httpd_start` (lines 286-318).  `socket_ret` and `bound_port` are what
`netutils_init_socket(port, 1, 0)` returns and leaves in `*port`; `listen_ret` is what
`listen` returns. -/
def httpd_start (httpd : httpd_t) (port : Nat) (socket_ret : Int) (bound_port : Nat)
    (listen_ret : Int) : StartResult :=
  if httpd.running ≠ 0 ∨ httpd.joined = 0 then
    { ret := 0, httpd := httpd, port := port, events := [] }
  else
    let httpd1 := { httpd with server_fd := socket_ret }
    let ev_socket := [Event.netutils_init_socket port socket_ret]
    if httpd1.server_fd = -1 then
      { ret := -1, httpd := httpd1, port := bound_port, events := ev_socket }
    else
      let ev_listen := [Event.listen httpd1.server_fd 5 listen_ret]
      if listen_ret = -1 then
        { ret := -2, httpd := httpd1, port := bound_port, events := ev_socket ++ ev_listen }
      else
        { ret := 1
          httpd := { httpd1 with running := 1, joined := 0 }
          port := bound_port
          events := ev_socket ++ ev_listen ++ [Event.thread_create] }

/-- `httpd_stop` (lines 320-338).  `httpd` carries the connection table as the worker
has it when it leaves its loop: between `running = 0` and the return of `THREAD_JOIN`
the worker takes its exit path `httpd_thread_exit` (or has taken it already). -/
def httpd_stop (httpd : httpd_t) : httpd_t × List Event :=
  if httpd.running = 0 ∨ httpd.joined ≠ 0 then (httpd, [])
  else
    let httpd1 := { httpd with running := 0 }
    let worker := httpd_thread_exit httpd1
    ({ worker.1 with joined := 1 }, worker.2 ++ [Event.thread_join])

/-- `httpd_remove_connection(httpd, &httpd->connections[i])` for a slot of the table. -/
def httpd_remove_slot (httpd : httpd_t) (i : Nat) : httpd_t × List Event :=
  match httpd.connections[i]? with
  | none => (httpd, [])
  | some connection =>
    let removed := httpd_remove_connection connection
    ({ httpd with connections := httpd.connections.set i removed.1 }, removed.2)

/-- One pass of the service loop body for slot `i` of the table. -/
def httpd_service_slot (env : Env) (rfds : List Int) (inp : SlotInput) (httpd : httpd_t)
    (i : Nat) : Option (httpd_t × List Event) :=
  match httpd.connections[i]? with
  | none => some (httpd, [])
  | some connection =>
    match service_connection env httpd.use_rtsp rfds inp connection with
    | none => none
    | some (connection1, evs) =>
      some ({ httpd with connections := httpd.connections.set i connection1 }, evs)

/-- A sequence of `send` results for a write with `remaining` bytes still to go in
which no `send` fails and each one accepts a positive number of bytes not exceeding the
bytes then remaining, up to the `send` that leaves nothing to write. -/
def GoodSends : List Int → Nat → Prop
  | [], remaining => remaining = 0
  | ret :: rets, remaining =>
    remaining = 0 ∨ (0 < ret ∧ ret ≤ (remaining : Int) ∧ GoodSends rets (remaining - ret.toNat))

/-- The bytes the peer has taken: for each recorded `send`, in order, the first `ret`
bytes of the buffer that call was passed. -/
def accepted : List Event → Bytes
  | [] => []
  | Event.send _ buffer ret :: evs => buffer.take ret.toNat ++ accepted evs
  | _ :: evs => accepted evs

/-- The results of the `send` calls of a trace, in order. -/
def send_results : List Event → List Int
  | [] => []
  | Event.send _ _ ret :: evs => ret :: send_results evs
  | _ :: evs => send_results evs

/-- The arguments of the `conn_destroy` calls of a trace, in order. -/
def conn_destroy_calls : List Event → List Nat
  | [] => []
  | Event.conn_destroy user_data :: evs => user_data :: conn_destroy_calls evs
  | _ :: evs => conn_destroy_calls evs

/-- The request object the parser works on when a slot is serviced: the one in progress,
or a fresh one from `http_request_init` (lines 214-217). -/
def request_in_service (use_rtsp : Int) (connection : http_connection_t) : http_request_t :=
  match connection.request with
  | some request => request
  | none => http_request_init use_rtsp

/-- One operation on the server: an admission, the eviction of a connected slot, one
service step of a slot, the final drain of the worker, `httpd_start` or `httpd_stop`. -/
inductive Step (env : Env) : httpd_t → httpd_t → Prop where
  | admission (httpd : httpd_t) (fd : Int) (local_addr remote_addr : Bytes) :
      Step env httpd (httpd_add_connection env httpd fd local_addr remote_addr).1
  | eviction (httpd : httpd_t) (i : Nat) (connection : http_connection_t) :
      httpd.connections[i]? = some connection → connection.connected ≠ 0 →
      Step env httpd (httpd_remove_slot httpd i).1
  | service (httpd : httpd_t) (rfds : List Int) (inp : SlotInput) (i : Nat)
      (httpd1 : httpd_t) (evs : List Event) :
      httpd_service_slot env rfds inp httpd i = some (httpd1, evs) →
      Step env httpd httpd1
  | drain (httpd : httpd_t) :
      Step env httpd (httpd_thread_exit httpd).1
  | start (httpd : httpd_t) (port : Nat) (socket_ret : Int) (bound_port : Nat)
      (listen_ret : Int) :
      Step env httpd (httpd_start httpd port socket_ret bound_port listen_ret).httpd
  | stop (httpd : httpd_t) :
      Step env httpd (httpd_stop httpd).1

/-- The servers reachable from `httpd_init` by any sequence of operations. -/
inductive Reachable (env : Env) : httpd_t → Prop where
  | init (max_connections use_rtsp : Int) (httpd : httpd_t) :
      httpd_init max_connections use_rtsp = some httpd → Reachable env httpd
  | step (httpd httpd1 : httpd_t) :
      Reachable env httpd → Step env httpd httpd1 → Reachable env httpd1

/-- The slot-table invariant: a free slot has no request object. -/
def free_slots_clean (connections : List http_connection_t) : Prop :=
  ∀ c ∈ connections, c.connected = 0 → c.request = none

/-- A callback set and parser verdicts used to run the definitions on concrete inputs:
the handle returned by `conn_init` is `ctx` plus the two address lengths, the handler
answers every request with three bytes, a request is in error once a buffer starting
with byte `0` was fed and complete once its last buffer ends with byte `10`. -/
def sample_env : Env :=
  { callbacks :=
      { ctx := 7
        conn_init := fun ctx local_addr remote_addr => ctx + local_addr.length + remote_addr.length
        conn_request := fun _ _ => some [79, 75, 10] }
    http_request_has_error := fun request => request.fed.any fun p => p.1.head? == some 0
    http_request_is_complete := fun request =>
      match request.fed.getLast? with
      | some p => p.1.getLast? == some 10
      | none => false }

/-- A table of two slots, both connected. -/
def full_httpd : httpd_t :=
  { use_rtsp := 1
    connections := [{ connected := 1, socket_fd := 4, user_data := 15, request := none },
                    { connected := 1, socket_fd := 5, user_data := 15, request := none }]
    running := 1
    joined := 0
    server_fd := 3 }

/-- A table of three slots in which slot 1 is the lowest free one. -/
def gap_httpd : httpd_t :=
  { use_rtsp := 1
    connections := [{ connected := 1, socket_fd := 4, user_data := 15, request := none },
                    { connected := 0, socket_fd := 5, user_data := 15, request := none },
                    { connected := 0, socket_fd := 0, user_data := 0, request := none }]
    running := 1
    joined := 0
    server_fd := 3 }

/-- The server `httpd_init(2, 1)` returns. -/
def fresh_httpd : httpd_t :=
  { use_rtsp := 1
    connections := [zero_connection, zero_connection]
    running := 0
    joined := 1
    server_fd := 0 }

/-- The server `fresh_httpd` after a successful `httpd_start` whose listening socket is
descriptor 3. -/
def started_httpd : httpd_t := (httpd_start fresh_httpd 5000 3 5000 0).httpd

/-- The started server `started_httpd` after the worker admitted one client on
descriptor 4. -/
def serving_httpd : httpd_t :=
  (httpd_add_connection sample_env started_httpd 4 [127, 0, 0, 1] [10, 0, 0, 2]).1

/-! ## Properties -/

theorem take_set_self (connections : List http_connection_t) (i : Nat)
    (c : http_connection_t) : (connections.set i c).take i = connections.take i := by
  rw [List.set_take]
  exact List.set_eq_of_length_le (by simp)

theorem find_free_slot_full (connections : List http_connection_t) (k : Nat)
    (hfull : ∀ c ∈ connections, c.connected ≠ 0) :
    find_free_slot connections k = k + connections.length := by
  induction connections generalizing k with
  | nil => simp [find_free_slot]
  | cons c rest ih =>
    have hc : c.connected ≠ 0 := hfull c (List.mem_cons_self _ _)
    have hrest : ∀ c' ∈ rest, c'.connected ≠ 0 := fun c' h => hfull c' (List.mem_cons_of_mem _ h)
    simp only [find_free_slot, hc, if_false, List.length_cons]
    rw [ih (k + 1) hrest]
    omega

theorem find_free_slot_lowest (connections : List http_connection_t) (i k : Nat)
    (c : http_connection_t) (hi : connections[i]? = some c) (hfree : c.connected = 0)
    (hlow : ∀ c' ∈ connections.take i, c'.connected ≠ 0) :
    find_free_slot connections k = k + i := by
  induction connections generalizing i k with
  | nil => simp at hi
  | cons c0 rest ih =>
    cases i with
    | zero =>
      simp at hi
      subst hi
      simp [find_free_slot, hfree]
    | succ i =>
      have hc0 : c0.connected ≠ 0 := hlow c0 (by simp)
      have hrest : ∀ c' ∈ rest.take i, c'.connected ≠ 0 :=
        fun c' h => hlow c' (by simp [List.take_succ_cons, h])
      simp only [find_free_slot, hc0, if_false]
      rw [ih i (k + 1) (by simpa using hi) hrest]
      omega

/-- C1: when every slot of the table is connected, `httpd_add_connection` on a newly
accepted socket `fd` admits nothing: the server (every slot's `connected`, `socket_fd`,
`user_data` and `request` included) is unchanged, the only calls made are
`shutdown(fd, SHUT_RDWR)` followed by `closesocket(fd)`, and `conn_init` is not called. -/
theorem add_connection_full_rejects (env : Env) (httpd : httpd_t) (fd : Int)
    (local_addr remote_addr : Bytes)
    (hfull : ∀ c ∈ httpd.connections, c.connected ≠ 0) :
    (httpd_add_connection env httpd fd local_addr remote_addr).1 = httpd ∧
    (httpd_add_connection env httpd fd local_addr remote_addr).2 =
      [Event.shutdown fd ShutHow.SHUT_RDWR, Event.closesocket fd] ∧
    ∀ ctx l r, Event.conn_init ctx l r ∉
      (httpd_add_connection env httpd fd local_addr remote_addr).2 := by
  have hscan := find_free_slot_full httpd.connections 0 hfull
  simp [httpd_add_connection, hscan, httpd_t.max_connections]

/-- Witness for C1 on a full table of two slots. -/
theorem add_connection_full_rejects_witness :
    (∀ c ∈ full_httpd.connections, c.connected ≠ 0) ∧
    (httpd_add_connection sample_env full_httpd 9 [127, 0, 0, 1] [10, 0, 0, 2]).1 = full_httpd ∧
    (httpd_add_connection sample_env full_httpd 9 [127, 0, 0, 1] [10, 0, 0, 2]).2 =
      [Event.shutdown 9 ShutHow.SHUT_RDWR, Event.closesocket 9] ∧
    ∀ ctx l r, Event.conn_init ctx l r ∉
      (httpd_add_connection sample_env full_httpd 9 [127, 0, 0, 1] [10, 0, 0, 2]).2 :=
  ⟨by decide,
   add_connection_full_rejects sample_env full_httpd 9 [127, 0, 0, 1] [10, 0, 0, 2] (by decide)⟩

theorem add_connection_at_lowest (env : Env) (httpd : httpd_t) (fd : Int)
    (local_addr remote_addr : Bytes) (i : Nat) (c : http_connection_t)
    (hi : httpd.connections[i]? = some c) (hfree : c.connected = 0)
    (hlow : ∀ c' ∈ httpd.connections.take i, c'.connected ≠ 0) :
    httpd_add_connection env httpd fd local_addr remote_addr =
      ({ httpd with
          connections := httpd.connections.set i
            { c with
                socket_fd := fd
                connected := 1
                user_data := env.callbacks.conn_init env.callbacks.ctx local_addr remote_addr } },
       [Event.conn_init env.callbacks.ctx local_addr remote_addr]) := by
  have hscan := find_free_slot_lowest httpd.connections i 0 c hi hfree hlow
  have hlt : i < httpd.connections.length := by
    rcases List.getElem?_eq_some.mp hi with ⟨h, _⟩
    exact h
  have hne : ¬ ((i : Int) = (httpd.connections.length : Int)) := by omega
  simp only [httpd_add_connection, hscan, httpd_t.max_connections, Nat.zero_add, hne,
    if_false, update_slot, hi]

/-- C2: let slot `i` hold `c` and let every slot below `i` be connected.  If `c` is free,
`httpd_add_connection(fd, local, remote)` claims slot `i`: afterwards it holds `c` with
`connected = 1`, `socket_fd = fd` and `user_data` the value of
`conn_init(opaque, local, remote)`, every other slot is unchanged, and the only call made
is that one call of `conn_init`.  If instead `c` is connected and
`httpd_remove_connection` frees it, the next admission lands in slot `i`. -/
theorem add_connection_claims_lowest_free (env : Env) (httpd : httpd_t) (fd : Int)
    (local_addr remote_addr : Bytes) (i : Nat) (c : http_connection_t)
    (hi : httpd.connections[i]? = some c)
    (hlow : ∀ c' ∈ httpd.connections.take i, c'.connected ≠ 0) :
    (c.connected = 0 →
      (httpd_add_connection env httpd fd local_addr remote_addr).1.connections[i]? =
        some { connected := 1
               socket_fd := fd
               user_data := env.callbacks.conn_init env.callbacks.ctx local_addr remote_addr
               request := c.request } ∧
      (∀ j, j ≠ i →
        (httpd_add_connection env httpd fd local_addr remote_addr).1.connections[j]? =
          httpd.connections[j]?) ∧
      (httpd_add_connection env httpd fd local_addr remote_addr).2 =
        [Event.conn_init env.callbacks.ctx local_addr remote_addr]) ∧
    (c.connected ≠ 0 →
      (httpd_add_connection env (httpd_remove_slot httpd i).1 fd local_addr
          remote_addr).1.connections[i]? =
        some { connected := 1
               socket_fd := fd
               user_data := env.callbacks.conn_init env.callbacks.ctx local_addr remote_addr
               request := none } ∧
      (∀ j, j ≠ i →
        (httpd_add_connection env (httpd_remove_slot httpd i).1 fd local_addr
            remote_addr).1.connections[j]? = httpd.connections[j]?)) := by
  have hlt : i < httpd.connections.length := by
    rcases List.getElem?_eq_some.mp hi with ⟨h, _⟩
    exact h
  constructor
  · intro hfree
    rw [add_connection_at_lowest env httpd fd local_addr remote_addr i c hi hfree hlow]
    refine ⟨?_, ?_, rfl⟩
    · simp [List.getElem?_set, hlt]
    · intro j hj
      simp [List.getElem?_set, Ne.symm hj]
  · intro _
    have hi1 : (httpd_remove_slot httpd i).1.connections[i]? =
        some (httpd_remove_connection c).1 := by
      simp [httpd_remove_slot, hi, List.getElem?_set, hlt]
    have hlow1 : ∀ c' ∈ (httpd_remove_slot httpd i).1.connections.take i, c'.connected ≠ 0 := by
      simpa [httpd_remove_slot, hi, take_set_self] using hlow
    rw [add_connection_at_lowest env (httpd_remove_slot httpd i).1 fd local_addr remote_addr i
      (httpd_remove_connection c).1 hi1 (by simp [httpd_remove_connection]) hlow1]
    refine ⟨?_, ?_⟩
    · simp [List.getElem?_set, hlt, httpd_remove_slot, hi, httpd_remove_connection]
    · intro j hj
      simp [List.getElem?_set, Ne.symm hj, httpd_remove_slot, hi]

/-- Witness for C2: slot 1 of `gap_httpd` is its lowest free slot and is claimed; slot 1
of `full_httpd` is connected, and once freed it is the slot the next admission takes. -/
theorem add_connection_claims_lowest_free_witness :
    (gap_httpd.connections[1]? =
        some { connected := 0, socket_fd := 5, user_data := 15, request := none } ∧
      (∀ c' ∈ gap_httpd.connections.take 1, c'.connected ≠ 0) ∧
      (httpd_add_connection sample_env gap_httpd 9 [127, 0, 0, 1] [10, 0, 0, 2]).1.connections[1]? =
        some { connected := 1, socket_fd := 9, user_data := 15, request := none } ∧
      (∀ j, j ≠ 1 →
        (httpd_add_connection sample_env gap_httpd 9 [127, 0, 0, 1] [10, 0, 0, 2]).1.connections[j]? =
          gap_httpd.connections[j]?) ∧
      (httpd_add_connection sample_env gap_httpd 9 [127, 0, 0, 1] [10, 0, 0, 2]).2 =
        [Event.conn_init 7 [127, 0, 0, 1] [10, 0, 0, 2]]) ∧
    (full_httpd.connections[0]? =
        some { connected := 1, socket_fd := 4, user_data := 15, request := none } ∧
      (httpd_add_connection sample_env (httpd_remove_slot full_httpd 0).1 9 [127, 0, 0, 1]
          [10, 0, 0, 2]).1.connections[0]? =
        some { connected := 1, socket_fd := 9, user_data := 15, request := none }) :=
  ⟨⟨by decide, by decide,
    (add_connection_claims_lowest_free sample_env gap_httpd 9 [127, 0, 0, 1] [10, 0, 0, 2] 1
      { connected := 0, socket_fd := 5, user_data := 15, request := none }
      (by decide) (by decide)).1 (by decide)⟩,
   ⟨by decide,
    ((add_connection_claims_lowest_free sample_env full_httpd 9 [127, 0, 0, 1] [10, 0, 0, 2] 0
      { connected := 1, socket_fd := 4, user_data := 15, request := none }
      (by decide) (by decide)).2 (by decide)).1⟩⟩

theorem write_loop_from (fd : Int) (data : Bytes) (rets : List Int) (w : Nat)
    (hw : w ≤ data.length) (hgood : GoodSends rets (data.length - w)) :
    ∃ evs, write_loop fd data rets (w : Int) = some ((data.length : Int), evs) ∧
      evs.length ≤ data.length - w ∧
      send_results evs = rets.take evs.length ∧
      accepted evs = data.drop w ∧
      ∀ pre ev post, evs = pre ++ ev :: post →
        ∃ ret : Int, rets[pre.length]? = some ret ∧ 0 < ret ∧
          ev = Event.send fd (data.drop (w + (accepted pre).length)) ret := by
  induction rets generalizing w with
  | nil =>
    have hw0 : w = data.length := by
      simp only [GoodSends] at hgood
      omega
    subst hw0
    refine ⟨[], ?_, ?_, ?_, ?_, ?_⟩
    · simp [write_loop]
    · simp
    · simp [send_results]
    · simp [accepted]
    · intro pre ev post h
      simp at h
  | cons ret rets ih =>
    by_cases hdone : data.length - w = 0
    · have hw0 : w = data.length := by omega
      subst hw0
      refine ⟨[], ?_, ?_, ?_, ?_, ?_⟩
      · simp [write_loop]
      · simp
      · simp [send_results]
      · simp [accepted]
      · intro pre ev post h
        simp at h
    · simp only [GoodSends] at hgood
      rcases hgood with h0 | ⟨hpos, hle, hrest⟩
      · exact absurd h0 hdone
      · have hlt : (w : Int) < (data.length : Int) := by omega
        have hw1 : w + ret.toNat ≤ data.length := by omega
        have hrest1 : GoodSends rets (data.length - (w + ret.toNat)) := by
          rw [← Nat.sub_sub]
          exact hrest
        obtain ⟨evs, hrun, hlen, hres, hacc, hsuffix⟩ := ih (w + ret.toNat) hw1 hrest1
        have hnotfail : ret ≠ -1 := by omega
        have hwritten : (w : Int) + ret = ((w + ret.toNat : Nat) : Int) := by omega
        have htake : ((data.length : Int) - (w : Int)).toNat = data.length - w := by omega
        have hbuf : (data.drop w).take (data.length - w) = data.drop w :=
          List.take_of_length_le (by simp)
        have hmin : min ret.toNat (data.length - w) = ret.toNat := by omega
        refine ⟨Event.send fd (data.drop w) ret :: evs, ?_, ?_, ?_, ?_, ?_⟩
        · simp only [write_loop, hlt, if_true, hnotfail, if_false, hwritten, hrun,
            Int.toNat_ofNat, htake, hbuf]
        · simp only [List.length_cons]
          omega
        · simp only [send_results, List.length_cons, List.take_succ_cons, hres]
        · simp only [accepted, hacc]
          rw [← List.drop_drop]
          exact List.take_append_drop _ _
        · intro pre ev post h
          cases pre with
          | nil =>
            simp only [List.nil_append, List.cons.injEq] at h
            exact ⟨ret, by simp, hpos, by simp [accepted, h.1]⟩
          | cons p pre =>
            simp only [List.cons_append, List.cons.injEq] at h
            obtain ⟨ret1, hget, hpos1, hev⟩ := hsuffix pre ev post h.2
            refine ⟨ret1, by simpa using hget, hpos1, ?_⟩
            rw [hev, ← h.1]
            simp only [accepted, List.length_append, List.length_take, List.length_drop, hmin]
            rw [Nat.add_assoc]

/-- C3: for a payload `data` and send results `rets` in which no `send` fails and each
accepts a positive number of bytes not exceeding the bytes then remaining, the write loop
started at `written = 0` exits with `written` equal to the payload length after at most
that many calls.  The calls it made are tied to `rets` one for one: the results recorded
are the first results of `rets`, in order, and the call number `k` is passed the suffix
of the payload left after the bytes accepted by the calls before it and returns
`rets[k]`.  The accepted chunks put together in order are the payload. -/
theorem write_loop_delivers (fd : Int) (data : Bytes) (rets : List Int)
    (hgood : GoodSends rets data.length) :
    ∃ evs, write_loop fd data rets 0 = some ((data.length : Int), evs) ∧
      evs.length ≤ data.length ∧
      send_results evs = rets.take evs.length ∧
      (∀ pre ev post, evs = pre ++ ev :: post →
        ∃ ret : Int, rets[pre.length]? = some ret ∧ 0 < ret ∧
          ev = Event.send fd (data.drop (accepted pre).length) ret) ∧
      accepted evs = data := by
  obtain ⟨evs, hrun, hlen, hres, hacc, hsuffix⟩ :=
    write_loop_from fd data rets 0 (Nat.zero_le _) (by simpa using hgood)
  refine ⟨evs, by simpa using hrun, by simpa using hlen, hres, ?_, by simpa using hacc⟩
  intro pre ev post h
  simpa using hsuffix pre ev post h

/-- Witness for C3: five bytes delivered by sends that accept 2, 2 and 1 bytes; the loop
makes three calls, on the whole payload, on its last three bytes and on its last byte. -/
theorem write_loop_delivers_witness :
    GoodSends [2, 2, 1] [72, 84, 84, 80, 10].length ∧
    (∃ evs, write_loop 4 [72, 84, 84, 80, 10] [2, 2, 1] 0 =
        some ((([72, 84, 84, 80, 10] : Bytes).length : Int), evs) ∧
      evs.length ≤ ([72, 84, 84, 80, 10] : Bytes).length ∧
      send_results evs = ([2, 2, 1] : List Int).take evs.length ∧
      (∀ pre ev post, evs = pre ++ ev :: post →
        ∃ ret : Int, ([2, 2, 1] : List Int)[pre.length]? = some ret ∧ 0 < ret ∧
          ev = Event.send 4 (([72, 84, 84, 80, 10] : Bytes).drop (accepted pre).length) ret) ∧
      accepted evs = [72, 84, 84, 80, 10]) ∧
    write_loop 4 [72, 84, 84, 80, 10] [2, 2, 1] 0 =
      some (5, [Event.send 4 [72, 84, 84, 80, 10] 2, Event.send 4 [84, 80, 10] 2,
                Event.send 4 [10] 1]) :=
  ⟨by simp [GoodSends],
   write_loop_delivers 4 [72, 84, 84, 80, 10] [2, 2, 1] (by simp [GoodSends]),
   by decide⟩

theorem conn_destroy_calls_append (evs1 evs2 : List Event) :
    conn_destroy_calls (evs1 ++ evs2) = conn_destroy_calls evs1 ++ conn_destroy_calls evs2 := by
  induction evs1 with
  | nil => rfl
  | cons ev evs1 ih => cases ev <;> simp [conn_destroy_calls, ih]

theorem conn_destroy_calls_remove (connection : http_connection_t) :
    conn_destroy_calls (httpd_remove_connection connection).2 = [connection.user_data] := by
  cases hreq : connection.request <;> simp [httpd_remove_connection, hreq, conn_destroy_calls]

theorem service_loop_slot (env : Env) (use_rtsp : Int) (rfds : List Int)
    (inputs : Nat → SlotInput) (connections connections1 : List http_connection_t) (k : Nat)
    (evs : List Event)
    (hrun : service_loop env use_rtsp rfds inputs connections k = some (connections1, evs))
    (j : Nat) (c : http_connection_t) (hj : connections[j]? = some c) :
    ∃ c1 evs1, service_connection env use_rtsp rfds (inputs (k + j)) c = some (c1, evs1) ∧
      connections1[j]? = some c1 := by
  induction connections generalizing connections1 k evs j with
  | nil => simp at hj
  | cons c0 rest ih =>
    simp only [service_loop] at hrun
    cases hhead : service_connection env use_rtsp rfds (inputs k) c0 with
    | none => simp [hhead] at hrun
    | some r0 =>
      obtain ⟨c01, evs0⟩ := r0
      simp only [hhead] at hrun
      cases htail : service_loop env use_rtsp rfds inputs rest (k + 1) with
      | none => simp [htail] at hrun
      | some r1 =>
        obtain ⟨rest1, evs1⟩ := r1
        simp only [htail, Option.some.injEq, Prod.mk.injEq] at hrun
        obtain ⟨hconns, _⟩ := hrun
        subst hconns
        cases j with
        | zero =>
          simp only [List.getElem?_cons_zero, Option.some.injEq] at hj
          subst hj
          exact ⟨c01, evs0, by simpa using hhead, by simp⟩
        | succ j =>
          simp only [List.getElem?_cons_succ] at hj
          obtain ⟨c1, evs2, hstep, hget⟩ := ih rest1 (k + 1) evs1 htail j hj
          refine ⟨c1, evs2, ?_, by simpa using hget⟩
          have hidx : k + (j + 1) = k + 1 + j := by omega
          rw [hidx]
          exact hstep

/-- C4: for a connected slot whose socket is ready and a read that returned bytes
(`recv` result not zero), if the parser reports an error once the chunk is fed, the
service step for that slot makes exactly these calls: `http_request_init` when the slot
had no request in progress, `recv`, `http_request_add_data`, then the eviction
`http_request_destroy` on the request, `conn_destroy` on the slot's `user_data`,
`shutdown(SHUT_WR)` and `closesocket` on its socket.  So `conn_request` is not called,
nothing is sent, `conn_destroy` is called once, and the slot ends with `request = NULL`
and `connected = 0`. -/
theorem parse_error_evicts (env : Env) (use_rtsp : Int) (rfds : List Int) (inp : SlotInput)
    (connection : http_connection_t)
    (hconn : connection.connected ≠ 0) (hready : connection.socket_fd ∈ rfds)
    (hread : inp.recv_ret ≠ 0)
    (herr : env.http_request_has_error
      (http_request_add_data (request_in_service use_rtsp connection) inp.buffer
        inp.recv_ret) = true) :
    ∃ evs, service_connection env use_rtsp rfds inp connection =
        some ({ connection with request := none, connected := 0 }, evs) ∧
      evs = (match connection.request with
              | some _ => []
              | none => [Event.http_request_init use_rtsp]) ++
            [Event.recv connection.socket_fd inp.recv_ret,
             Event.http_request_add_data (request_in_service use_rtsp connection) inp.buffer
               inp.recv_ret,
             Event.http_request_destroy
               (http_request_add_data (request_in_service use_rtsp connection) inp.buffer
                 inp.recv_ret),
             Event.conn_destroy connection.user_data,
             Event.shutdown connection.socket_fd ShutHow.SHUT_WR,
             Event.closesocket connection.socket_fd] ∧
      (∀ user_data request, Event.conn_request user_data request ∉ evs) ∧
      (∀ fd buffer ret, Event.send fd buffer ret ∉ evs) ∧
      conn_destroy_calls evs = [connection.user_data] := by
  refine ⟨_, ?_, rfl, ?_, ?_, ?_⟩
  · cases hreq : connection.request <;>
      simp [service_connection, request_in_service, hreq, hconn, hready, hread,
        httpd_remove_connection] at herr ⊢ <;>
      simp [herr]
  · intro user_data request
    cases hreq : connection.request <;> simp
  · intro fd buffer ret
    cases hreq : connection.request <;> simp
  · cases hreq : connection.request <;> rfl

/-- Witness for C4: a chunk starting with byte `0`, which `sample_env` rejects. -/
theorem parse_error_evicts_witness :
    ∃ evs, service_connection sample_env 1 [4] { recv_ret := 3, buffer := [0, 1, 2], send_rets := [] }
        { connected := 1, socket_fd := 4, user_data := 15, request := none } =
        some ({ connected := 0, socket_fd := 4, user_data := 15, request := none }, evs) ∧
      evs = [Event.http_request_init 1] ++
            [Event.recv 4 3,
             Event.http_request_add_data (http_request_init 1) [0, 1, 2] 3,
             Event.http_request_destroy (http_request_add_data (http_request_init 1) [0, 1, 2] 3),
             Event.conn_destroy 15,
             Event.shutdown 4 ShutHow.SHUT_WR,
             Event.closesocket 4] ∧
      (∀ user_data request, Event.conn_request user_data request ∉ evs) ∧
      (∀ fd buffer ret, Event.send fd buffer ret ∉ evs) ∧
      conn_destroy_calls evs = [15] :=
  parse_error_evicts sample_env 1 [4] { recv_ret := 3, buffer := [0, 1, 2], send_rets := [] }
    { connected := 1, socket_fd := 4, user_data := 15, request := none }
    (by decide) (by decide) (by decide) (by decide)

theorem drain_connections_calls (connections : List http_connection_t) :
    conn_destroy_calls (drain_connections connections).2 =
      (connections.filter fun c => decide (c.connected ≠ 0)).map fun c => c.user_data := by
  induction connections with
  | nil => rfl
  | cons c rest ih =>
    by_cases hc : c.connected = 0
    · simp [drain_connections, hc, ih]
    · simp [drain_connections, hc, ih, conn_destroy_calls_append, conn_destroy_calls_remove]

theorem drain_connections_slots (connections : List http_connection_t) :
    (drain_connections connections).1 =
      connections.map fun c =>
        if c.connected = 0 then c else { c with request := none, connected := 0 } := by
  induction connections with
  | nil => rfl
  | cons c rest ih =>
    by_cases hc : c.connected = 0
    · simp [drain_connections, hc, ih]
    · simp [drain_connections, hc, ih, httpd_remove_connection]

/-- C5: the drain at the end of `httpd_thread` calls `conn_destroy` once for each
connected slot, in table order and with that slot's `user_data`, and for no free slot:
the arguments of its `conn_destroy` calls are the `user_data` of the connected slots, so
there are as many calls as connected slots.  Afterwards every slot has `connected = 0`;
free slots are untouched and formerly connected ones also have `request = NULL`. -/
theorem drain_destroys_each_connected_once (httpd : httpd_t) :
    conn_destroy_calls (httpd_thread_exit httpd).2 =
      ((httpd.connections.filter fun c => decide (c.connected ≠ 0)).map fun c => c.user_data) ∧
    (conn_destroy_calls (httpd_thread_exit httpd).2).length =
      httpd.connections.countP (fun c => decide (c.connected ≠ 0)) ∧
    (∀ c ∈ (httpd_thread_exit httpd).1.connections, c.connected = 0) ∧
    (httpd_thread_exit httpd).1.connections =
      httpd.connections.map fun c =>
        if c.connected = 0 then c else { c with request := none, connected := 0 } := by
  refine ⟨?_, ?_, ?_, ?_⟩
  · simp [httpd_thread_exit, drain_connections_calls]
  · simp [httpd_thread_exit, drain_connections_calls, List.countP_eq_length_filter]
  · intro c hc
    simp only [httpd_thread_exit, drain_connections_slots, List.mem_map] at hc
    obtain ⟨c0, _, rfl⟩ := hc
    by_cases h0 : c0.connected = 0 <;> simp [h0]
  · simp [httpd_thread_exit, drain_connections_slots]

/-- C6 evaluated on the code: `httpd_init(2, 1)`, a successful `httpd_start` (listening
socket 3), one admission (socket 4), then `httpd_stop`.  The calls of `httpd_stop` and of
the exiting worker are the eviction of the slot and the join; descriptor 3 is neither
closed nor shut down by them, nor by `httpd_start`, and `server_fd` still holds it.  A
following `httpd_start` (new socket 6) overwrites `server_fd`, again without descriptor 3
being closed. -/
theorem stop_leaves_listening_socket_open_example :
    httpd_init 2 1 = some fresh_httpd ∧
    (httpd_start fresh_httpd 5000 3 5000 0).ret = 1 ∧
    serving_httpd.server_fd = 3 ∧
    (httpd_stop serving_httpd).2 =
      [Event.conn_destroy 15, Event.shutdown 4 ShutHow.SHUT_WR, Event.closesocket 4,
       Event.thread_join] ∧
    (httpd_stop serving_httpd).1.running = 0 ∧
    (httpd_stop serving_httpd).1.joined = 1 ∧
    (httpd_stop serving_httpd).1.server_fd = 3 ∧
    (httpd_start (httpd_stop serving_httpd).1 5000 6 5000 0).ret = 1 ∧
    (httpd_start (httpd_stop serving_httpd).1 5000 6 5000 0).httpd.server_fd = 6 ∧
    Event.closesocket 3 ∉
      (httpd_start fresh_httpd 5000 3 5000 0).events ++ (httpd_stop serving_httpd).2 ++
        (httpd_start (httpd_stop serving_httpd).1 5000 6 5000 0).events ∧
    Event.shutdown 3 ShutHow.SHUT_RDWR ∉
      (httpd_start fresh_httpd 5000 3 5000 0).events ++ (httpd_stop serving_httpd).2 ++
        (httpd_start (httpd_stop serving_httpd).1 5000 6 5000 0).events := by
  decide

/-- C7: for an idle server (`running = 0`, `joined = 1`) whose first `httpd_start`
returns 1, that call sets `running = 1` and `joined = 0` and creates one thread, and a
second `httpd_start` on the result returns 0, makes no call at all (no socket is opened,
no thread created) and leaves the server and `*port` as they are.  More generally
`httpd_start` returns 0 with no call and no change on every server with `running` set or
`joined = 0`. -/
theorem start_twice_is_rejected (httpd : httpd_t) (port : Nat) (socket_ret : Int)
    (bound_port : Nat) (listen_ret : Int) (port2 : Nat) (socket_ret2 : Int)
    (bound_port2 : Nat) (listen_ret2 : Int)
    (hidle : httpd.running = 0 ∧ httpd.joined = 1)
    (hfirst : (httpd_start httpd port socket_ret bound_port listen_ret).ret = 1) :
    (httpd_start httpd port socket_ret bound_port listen_ret).httpd.running = 1 ∧
    (httpd_start httpd port socket_ret bound_port listen_ret).httpd.joined = 0 ∧
    (httpd_start httpd port socket_ret bound_port listen_ret).events.count
      Event.thread_create = 1 ∧
    httpd_start (httpd_start httpd port socket_ret bound_port listen_ret).httpd port2
        socket_ret2 bound_port2 listen_ret2 =
      { ret := 0
        httpd := (httpd_start httpd port socket_ret bound_port listen_ret).httpd
        port := port2
        events := [] } ∧
    ∀ active : httpd_t, active.running ≠ 0 ∨ active.joined = 0 →
      httpd_start active port2 socket_ret2 bound_port2 listen_ret2 =
        { ret := 0, httpd := active, port := port2, events := [] } := by
  obtain ⟨hrun, hjoin⟩ := hidle
  have hgeneral : ∀ active : httpd_t, active.running ≠ 0 ∨ active.joined = 0 →
      httpd_start active port2 socket_ret2 bound_port2 listen_ret2 =
        { ret := 0, httpd := active, port := port2, events := [] } := by
    intro active hactive
    simp only [httpd_start, hactive, if_true]
  have hguard : ¬ (httpd.running ≠ 0 ∨ httpd.joined = 0) := by simp [hrun, hjoin]
  by_cases hsock : socket_ret = -1
  · simp [httpd_start, hguard, hsock] at hfirst
  · by_cases hlisten : listen_ret = -1
    · simp [httpd_start, hguard, hsock, hlisten] at hfirst
    · have hstart : httpd_start httpd port socket_ret bound_port listen_ret =
          { ret := 1
            httpd := { httpd with server_fd := socket_ret, running := 1, joined := 0 }
            port := bound_port
            events := [Event.netutils_init_socket port socket_ret,
                       Event.listen socket_ret 5 listen_ret, Event.thread_create] } := by
        simp [httpd_start, hguard, hsock, hlisten]
      rw [hstart]
      refine ⟨rfl, rfl, ?_, ?_, hgeneral⟩
      · simp [List.count_cons]
      · exact hgeneral _ (Or.inl (by simp))

/-- Witness for C7: `fresh_httpd` started on descriptor 3, then started again. -/
theorem start_twice_is_rejected_witness :
    (fresh_httpd.running = 0 ∧ fresh_httpd.joined = 1) ∧
    (httpd_start fresh_httpd 5000 3 5000 0).ret = 1 ∧
    (httpd_start fresh_httpd 5000 3 5000 0).httpd.running = 1 ∧
    (httpd_start fresh_httpd 5000 3 5000 0).httpd.joined = 0 ∧
    (httpd_start fresh_httpd 5000 3 5000 0).events.count Event.thread_create = 1 ∧
    httpd_start (httpd_start fresh_httpd 5000 3 5000 0).httpd 5001 6 5001 0 =
      { ret := 0
        httpd := (httpd_start fresh_httpd 5000 3 5000 0).httpd
        port := 5001
        events := [] } ∧
    ∀ active : httpd_t, active.running ≠ 0 ∨ active.joined = 0 →
      httpd_start active 5001 6 5001 0 =
        { ret := 0, httpd := active, port := 5001, events := [] } :=
  ⟨by decide, by decide,
   start_twice_is_rejected fresh_httpd 5000 3 5000 0 5001 6 5001 0 (by decide) (by decide)⟩

/-- C8, as stated, fails: on the idle server `fresh_httpd` a failing
`netutils_init_socket` gives the return value -1 and a failing `listen` gives -2, but the
server is not left as it was: `server_fd` was 0 and is -1, respectively 3, afterwards. -/
theorem start_failure_changes_server_fd_example :
    (httpd_start fresh_httpd 5000 (-1) 5000 0).ret = -1 ∧
    (httpd_start fresh_httpd 5000 (-1) 5000 0).httpd ≠ fresh_httpd ∧
    (httpd_start fresh_httpd 5000 (-1) 5000 0).httpd.server_fd = -1 ∧
    (httpd_start fresh_httpd 5000 3 5000 (-1)).ret = -2 ∧
    (httpd_start fresh_httpd 5000 3 5000 (-1)).httpd ≠ fresh_httpd ∧
    (httpd_start fresh_httpd 5000 3 5000 (-1)).httpd.server_fd = 3 ∧
    fresh_httpd.server_fd = 0 := by
  decide

/-- C8, amended: for an idle server, `httpd_start` returns -1 when
`netutils_init_socket` fails and -2 when the socket is obtained and `listen` fails; in
both cases no thread is created and every field of the server other than `server_fd` is
unchanged, so the server remains idle (`running = 0`, `joined = 1`). -/
theorem start_failure_stays_idle (httpd : httpd_t) (port : Nat) (socket_ret : Int)
    (bound_port : Nat) (listen_ret : Int)
    (hidle : httpd.running = 0 ∧ httpd.joined = 1)
    (hfail : socket_ret = -1 ∨ listen_ret = -1) :
    (socket_ret = -1 → (httpd_start httpd port socket_ret bound_port listen_ret).ret = -1) ∧
    (socket_ret ≠ -1 → (httpd_start httpd port socket_ret bound_port listen_ret).ret = -2) ∧
    Event.thread_create ∉ (httpd_start httpd port socket_ret bound_port listen_ret).events ∧
    { (httpd_start httpd port socket_ret bound_port listen_ret).httpd with
        server_fd := httpd.server_fd } = httpd ∧
    (httpd_start httpd port socket_ret bound_port listen_ret).httpd.running = 0 ∧
    (httpd_start httpd port socket_ret bound_port listen_ret).httpd.joined = 1 := by
  obtain ⟨hrun, hjoin⟩ := hidle
  cases httpd with
  | mk use_rtsp connections running joined server_fd =>
    simp only at hrun hjoin
    subst hrun hjoin
    by_cases hsock : socket_ret = -1
    · simp [httpd_start, hsock]
    · have hlisten : listen_ret = -1 := by
        rcases hfail with h | h
        · exact absurd h hsock
        · exact h
      simp [httpd_start, hsock, hlisten]

/-- Witness for the amended C8: a failing socket and a failing `listen` on `fresh_httpd`. -/
theorem start_failure_stays_idle_witness :
    ((fresh_httpd.running = 0 ∧ fresh_httpd.joined = 1) ∧
      (httpd_start fresh_httpd 5000 (-1) 5000 0).ret = -1 ∧
      Event.thread_create ∉ (httpd_start fresh_httpd 5000 (-1) 5000 0).events ∧
      { (httpd_start fresh_httpd 5000 (-1) 5000 0).httpd with
          server_fd := fresh_httpd.server_fd } = fresh_httpd) ∧
    ((httpd_start fresh_httpd 5000 3 5000 (-1)).ret = -2 ∧
      Event.thread_create ∉ (httpd_start fresh_httpd 5000 3 5000 (-1)).events ∧
      { (httpd_start fresh_httpd 5000 3 5000 (-1)).httpd with
          server_fd := fresh_httpd.server_fd } = fresh_httpd) :=
  ⟨⟨by decide,
    (start_failure_stays_idle fresh_httpd 5000 (-1) 5000 0 (by decide) (by decide)).1 rfl,
    (start_failure_stays_idle fresh_httpd 5000 (-1) 5000 0 (by decide) (by decide)).2.2.1,
    (start_failure_stays_idle fresh_httpd 5000 (-1) 5000 0 (by decide) (by decide)).2.2.2.1⟩,
   ⟨(start_failure_stays_idle fresh_httpd 5000 3 5000 (-1) (by decide) (by decide)).2.1
      (by decide),
    (start_failure_stays_idle fresh_httpd 5000 3 5000 (-1) (by decide) (by decide)).2.2.1,
    (start_failure_stays_idle fresh_httpd 5000 3 5000 (-1) (by decide) (by decide)).2.2.2.1⟩⟩

/-- C9 evaluated on the code: a connected, ready slot (socket 4, no request in
progress).  When `recv` returns 0 the slot is evicted without the parser being fed.  When
`recv` returns -1 the code creates a request object, calls `http_request_add_data` with
`datalen = -1` and, the parser of `sample_env` reporting neither an error nor
completion, leaves the slot connected with that request in progress: no `conn_destroy`,
no `closesocket`. -/
theorem failed_read_is_fed_to_parser_example :
    service_connection sample_env 1 [4] { recv_ret := 0, buffer := [71, 69, 84], send_rets := [] }
        { connected := 1, socket_fd := 4, user_data := 15, request := none } =
      some ({ connected := 0, socket_fd := 4, user_data := 15, request := none },
            [Event.http_request_init 1, Event.recv 4 0,
             Event.http_request_destroy { use_rtsp := 1, fed := [] },
             Event.conn_destroy 15, Event.shutdown 4 ShutHow.SHUT_WR, Event.closesocket 4]) ∧
    service_connection sample_env 1 [4] { recv_ret := -1, buffer := [71, 69, 84], send_rets := [] }
        { connected := 1, socket_fd := 4, user_data := 15, request := none } =
      some ({ connected := 1, socket_fd := 4, user_data := 15,
              request := some { use_rtsp := 1, fed := [([71, 69, 84], -1)] } },
            [Event.http_request_init 1, Event.recv 4 (-1),
             Event.http_request_add_data { use_rtsp := 1, fed := [] } [71, 69, 84] (-1)]) := by
  decide

theorem free_slots_clean_set (connections : List http_connection_t) (i : Nat)
    (c : http_connection_t) (hclean : free_slots_clean connections)
    (hc : c.connected = 0 → c.request = none) :
    free_slots_clean (connections.set i c) := by
  intro c1 hmem hfree
  rcases List.mem_or_eq_of_mem_set hmem with h | h
  · exact hclean c1 h hfree
  · subst h
    exact hc hfree

theorem free_slots_clean_add (env : Env) (httpd : httpd_t) (fd : Int)
    (local_addr remote_addr : Bytes) (hclean : free_slots_clean httpd.connections) :
    free_slots_clean (httpd_add_connection env httpd fd local_addr remote_addr).1.connections := by
  unfold httpd_add_connection
  simp only
  split
  · exact hclean
  · simp only [update_slot]
    split
    · exact hclean
    · exact free_slots_clean_set _ _ _ hclean (by simp)

theorem free_slots_clean_drain (connections : List http_connection_t)
    (hclean : free_slots_clean connections) :
    free_slots_clean (drain_connections connections).1 := by
  intro c hmem hfree
  simp only [drain_connections_slots, List.mem_map] at hmem
  obtain ⟨c0, hc0, rfl⟩ := hmem
  by_cases h0 : c0.connected = 0
  · simpa [h0] using hclean c0 hc0 h0
  · simp [h0]

theorem service_connection_clean (env : Env) (use_rtsp : Int) (rfds : List Int)
    (inp : SlotInput) (c c1 : http_connection_t) (evs : List Event)
    (hstep : service_connection env use_rtsp rfds inp c = some (c1, evs))
    (hc : c.connected = 0 → c.request = none) :
    c1.connected = 0 → c1.request = none := by
  unfold service_connection at hstep
  by_cases hconn : c.connected = 0
  · simp only [hconn, if_true, Option.some.injEq, Prod.mk.injEq] at hstep
    rw [← hstep.1]
    exact hc
  · simp only [hconn, if_false] at hstep
    by_cases hready : c.socket_fd ∈ rfds
    · simp only [hready, not_true_eq_false, if_false] at hstep
      by_cases hrecv : inp.recv_ret = 0
      · simp only [hrecv, if_true, Option.some.injEq, Prod.mk.injEq] at hstep
        rw [← hstep.1]
        simp [httpd_remove_connection]
      · simp only [hrecv, if_false] at hstep
        split at hstep
        · simp only [Option.some.injEq, Prod.mk.injEq] at hstep
          rw [← hstep.1]
          simp [httpd_remove_connection]
        · split at hstep
          · split at hstep
            · split at hstep
              · exact absurd hstep (by simp)
              · simp only [Option.some.injEq, Prod.mk.injEq] at hstep
                rw [← hstep.1]
                simp
            · simp only [Option.some.injEq, Prod.mk.injEq] at hstep
              rw [← hstep.1]
              simp
          · simp only [Option.some.injEq, Prod.mk.injEq] at hstep
            rw [← hstep.1]
            intro h
            exact absurd h hconn
    · simp only [hready, not_false_eq_true, if_true, Option.some.injEq, Prod.mk.injEq] at hstep
      rw [← hstep.1]
      exact hc

theorem free_slots_clean_step (env : Env) (httpd httpd1 : httpd_t)
    (hstep : Step env httpd httpd1) (hclean : free_slots_clean httpd.connections) :
    free_slots_clean httpd1.connections := by
  cases hstep with
  | admission fd local_addr remote_addr => exact free_slots_clean_add env httpd fd _ _ hclean
  | eviction i connection hi hconn =>
    simp only [httpd_remove_slot, hi]
    exact free_slots_clean_set _ _ _ hclean (by simp [httpd_remove_connection])
  | service rfds inp i _ _ hrun =>
    unfold httpd_service_slot at hrun
    cases hi : httpd.connections[i]? with
    | none =>
      simp only [hi, Option.some.injEq, Prod.mk.injEq] at hrun
      rw [← hrun.1]
      exact hclean
    | some c =>
      simp only [hi] at hrun
      cases hsvc : service_connection env httpd.use_rtsp rfds inp c with
      | none => simp [hsvc] at hrun
      | some r =>
        obtain ⟨c1, evs1⟩ := r
        simp only [hsvc, Option.some.injEq, Prod.mk.injEq] at hrun
        rw [← hrun.1]
        have hmem : c ∈ httpd.connections := List.getElem?_mem hi
        exact free_slots_clean_set _ _ _ hclean
          (service_connection_clean env _ rfds inp c c1 evs1 hsvc (hclean c hmem))
  | drain => exact free_slots_clean_drain _ hclean
  | start port socket_ret bound_port listen_ret =>
    have hsame : (httpd_start httpd port socket_ret bound_port listen_ret).httpd.connections =
        httpd.connections := by
      unfold httpd_start
      split
      · rfl
      · simp only
        split
        · rfl
        · split <;> rfl
    rw [hsame]
    exact hclean
  | stop =>
    unfold httpd_stop
    split
    · exact hclean
    · exact free_slots_clean_drain _ hclean

theorem free_slots_clean_reachable (env : Env) (httpd : httpd_t)
    (hreach : Reachable env httpd) : free_slots_clean httpd.connections := by
  induction hreach with
  | init max_connections use_rtsp httpd hinit =>
    unfold httpd_init at hinit
    split at hinit
    · simp only [Option.some.injEq] at hinit
      rw [← hinit]
      intro c hmem _
      simp only [List.mem_replicate] at hmem
      rw [hmem.2]
      rfl
    · exact absurd hinit (by simp)
  | step httpd httpd1 _ hstep ih => exact free_slots_clean_step env httpd httpd1 hstep ih

/-- C10: in every server reachable from `httpd_init` by admissions, evictions of
connected slots, service steps, the final drain, `httpd_start` and `httpd_stop`, every
free slot (`connected = 0`) has `request = NULL`; hence when the lowest free slot `i` is
claimed by a new admission, the admitted connection starts with no request object. -/
theorem reachable_free_slots_have_no_request (env : Env) (httpd : httpd_t)
    (hreach : Reachable env httpd) :
    (∀ c ∈ httpd.connections, c.connected = 0 → c.request = none) ∧
    ∀ (fd : Int) (local_addr remote_addr : Bytes) (i : Nat) (c : http_connection_t),
      httpd.connections[i]? = some c → c.connected = 0 →
      (∀ c1 ∈ httpd.connections.take i, c1.connected ≠ 0) →
      (httpd_add_connection env httpd fd local_addr remote_addr).1.connections[i]? =
        some { connected := 1
               socket_fd := fd
               user_data := env.callbacks.conn_init env.callbacks.ctx local_addr remote_addr
               request := none } := by
  have hclean := free_slots_clean_reachable env httpd hreach
  refine ⟨hclean, ?_⟩
  intro fd local_addr remote_addr i c hi hfree hlow
  have hlt : i < httpd.connections.length := by
    rcases List.getElem?_eq_some.mp hi with ⟨h, _⟩
    exact h
  have hreq : c.request = none := hclean c (List.getElem?_mem hi) hfree
  rw [add_connection_at_lowest env httpd fd local_addr remote_addr i c hi hfree hlow]
  simp [List.getElem?_set, hlt, hreq]

/-- Witness for C10: `serving_httpd` is reached by `httpd_init`, `httpd_start` and one
admission; its free slot 1 has no request and a further admission claims it clean. -/
theorem reachable_free_slots_have_no_request_witness :
    Reachable sample_env serving_httpd ∧
    (∀ c ∈ serving_httpd.connections, c.connected = 0 → c.request = none) ∧
    (httpd_add_connection sample_env serving_httpd 5 [127, 0, 0, 1] [10, 0, 0, 3]).1.connections[1]? =
      some { connected := 1, socket_fd := 5, user_data := 15, request := none } :=
  have hreach : Reachable sample_env serving_httpd :=
    Reachable.step _ _
      (Reachable.step _ _ (Reachable.init 2 1 fresh_httpd (by decide))
        (Step.start fresh_httpd 5000 3 5000 0))
      (Step.admission started_httpd 4 [127, 0, 0, 1] [10, 0, 0, 2])
  ⟨hreach,
   (reachable_free_slots_have_no_request sample_env serving_httpd hreach).1,
   (reachable_free_slots_have_no_request sample_env serving_httpd hreach).2 5 [127, 0, 0, 1]
     [10, 0, 0, 3] 1 zero_connection (by decide) (by decide) (by decide)⟩

end Httpd
